import Mathlib

/-!
Verification development for the Audio-Transcriber repository
(src/transcribe.py).  The worker loop, the percentage computation, the
UI message handler, the staged-file selection and the configuration
load/save are embedded as pure Lean functions.  External effects are
passed in as explicit parameters:

* the transcription engine is a function `String → Except String
  TranscribeResult` (an `Except.error` models an exception raised
  during `model.transcribe`);
* model loading is an `Except String Unit` (an exception raised in
  `load_model`);
* wall-clock timestamps (`datetime.now().strftime("%H%M%S")`) are a
  function `Nat → String` from the 1-based file index to the formatted
  time string;
* elapsed-seconds payloads of `file_done` and `all_done` are dropped
  from the event type (pure wall-clock readings with no logic on them);
* file writes are collected in a list of `WriteOp` records instead of
  touching a filesystem;
* `Path.resolve`, `Path.exists`, `Path.is_dir` are abstract functions
  supplied to the staged-file and configuration models.

Python rationals: `seg.end`, `info.duration` are embedded as `ℚ`;
`int(...)` on the clamped non-negative value is the floor.
-/

namespace Transcriber

/-- Segment produced by the external engine: the recognized `text` and the
optional `end` timestamp in seconds (`None` embedded as `none`). -/
structure Segment where
  text : String
  end_ : Option ℚ
  deriving Repr, DecidableEq

/-- Result of one `model.transcribe` call: the `info.duration` attribute
(`None` when absent) and the streamed list of segments in emission order. -/
structure TranscribeResult where
  duration : Option ℚ
  segments : List Segment
  deriving Repr, DecidableEq

/-- Progress event put on the queue by the worker.  The elapsed-seconds
payloads of `file_done` and `all_done` are omitted (opaque wall-clock
readings). -/
inductive Event where
  | status (text : String)
  | file_start (idx total : Nat) (filename : String)
  | segment (text : String) (percent : ℤ)
  | file_done (idx total : Nat) (filename : String) (out_path : String)
  | all_done
  | error (message : String)
  deriving Repr, DecidableEq

/-- One file written by the worker: the path and the full text content. -/
structure WriteOp where
  path : String
  content : String
  deriving Repr, DecidableEq

/-- Python `str.strip()`: remove leading and trailing whitespace. -/
def py_strip (s : String) : String :=
  String.mk
    (((s.toList.dropWhile Char.isWhitespace).reverse.dropWhile Char.isWhitespace).reverse)

/-- Python `str.lower()` (ASCII case folding suffices for extensions). -/
def py_lower (s : String) : String :=
  String.mk (s.toList.map Char.toLower)

/-- Python `Path(p).name`: the final path component (everything after the
last slash, char 47). -/
def path_name (p : String) : String :=
  String.mk ((p.toList.reverse.takeWhile (fun c => !(c == Char.ofNat 47))).reverse)

/-- Per-file progress, from src/transcribe.py lines 403-406:
`if duration > 0 and seg.end is not None: percent = int(min(max(seg.end /
duration * 100, 0), 100)) else: percent = 0`.  The clamped value is
non-negative, so Python `int` truncation is the floor. -/
def segPercent (duration : ℚ) (seg_end : Option ℚ) : ℤ :=
  match seg_end with
  | some e => if 0 < duration then ⌊min (max (e / duration * 100) 0) 100⌋ else 0
  | none => 0

/-- Percentage formula as the spec words it: clamp(segment_end_time /
total_duration * 100, 0, 100) rounded down, and 0 whenever the total
duration is unknown (`none`) or non-positive. -/
def spec_percent (total_duration : Option ℚ) (seg_end : ℚ) : ℤ :=
  match total_duration with
  | none => 0
  | some d => if d ≤ 0 then 0 else ⌊min (max (seg_end / d * 100) 0) 100⌋

/-- Segment loop of the worker (src/transcribe.py lines 396-409): skip
blank text, otherwise collect the stripped line and emit a `segment`
event with the computed percent.  Returns (lines, events). -/
def processSegments (duration : ℚ) : List Segment → List String × List Event
  | [] => ([], [])
  | s :: rest =>
    let t := py_strip s.text
    if t = "" then processSegments duration rest
    else
      let pr := processSegments duration rest
      (t :: pr.1, Event.segment t (segPercent duration s.end_) :: pr.2)

/-- Lines the worker buffers for one file: the stripped non-empty segment
texts, in emission order. -/
def transcript_lines (segs : List Segment) : List String :=
  segs.filterMap fun s =>
    let t := py_strip s.text
    if t = "" then none else some t

/-- Segment events the worker emits for one file. -/
def seg_events (duration : ℚ) (segs : List Segment) : List Event :=
  segs.filterMap fun s =>
    let t := py_strip s.text
    if t = "" then none else some (Event.segment t (segPercent duration s.end_))

/-- Output file name, src/transcribe.py line 413: `f"Call{idx}_{timestamp_str}.txt"`. -/
def out_name (idx : Nat) (timestamp : String) : String :=
  "Call" ++ toString idx ++ "_" ++ timestamp ++ ".txt"

/-- Content written for one file, lines 419-421: each buffered line
followed by a blank line. -/
def transcript_content (lines : List String) : String :=
  String.join (lines.map fun line => line ++ "\n\n")

/-- Per-file loop of `worker_transcribe_all` (src/transcribe.py lines
376-431), indexed from `idx` (the source enumerates from 1).  `total` is
`self.total_files`, which equals the snapshot length for the whole run
(set at run start, selection controls disabled while running).  An
engine exception aborts the loop and surfaces as the single `error`
event of the enclosing try/except. -/
def workerLoop (engine : String → Except String TranscribeResult)
    (output_dir : String) (ts : Nat → String) (total : Nat) :
    Nat → List String → List Event × List WriteOp
  | _, [] => ([Event.all_done], [])
  | idx, p :: rest =>
    let ev_start := Event.file_start idx total (path_name p)
    match engine p with
    | Except.error e => ([ev_start, Event.error e], [])
    | Except.ok res =>
      let duration := res.duration.getD 0
      let pr := processSegments duration res.segments
      let out_path := output_dir ++ "/" ++ out_name idx (ts idx)
      let w : WriteOp := ⟨out_path, transcript_content pr.1⟩
      let ev_done := Event.file_done idx total (path_name p) out_path
      let rec_pr := workerLoop engine output_dir ts total (idx + 1) rest
      (ev_start :: pr.2 ++ ev_done :: rec_pr.1, w :: rec_pr.2)

/-- Whole worker body, src/transcribe.py lines 368-437: status events,
model load (an `Except.error` models a load exception), the per-file
loop, `all_done` on completion; any exception becomes one `error`
event. -/
def worker_transcribe_all (load_model : Except String Unit)
    (engine : String → Except String TranscribeResult)
    (output_dir : String) (ts : Nat → String) (worker_files : List String) :
    List Event × List WriteOp :=
  let ev0 := Event.status "Loading model (small, int8 on CPU)..."
  match load_model with
  | Except.error e => ([ev0, Event.error e], [])
  | Except.ok _ =>
    let ev1 := Event.status "Model loaded. Starting transcription..."
    let pr := workerLoop engine output_dir ts worker_files.length 1 worker_files
    (ev0 :: ev1 :: pr.1, pr.2)

/-- UI-controller fields relevant to the run counters, src/transcribe.py
lines 89-96. -/
structure UIState where
  total_files : Nat
  files_done : Nat
  is_transcribing : Bool
  deriving Repr, DecidableEq

/-- Counter state right after `on_start_transcription` (lines 330-334):
the snapshot is taken, `total_files` is its length, `files_done` is 0. -/
def start_run_state (worker_files : List String) : UIState :=
  { total_files := worker_files.length, files_done := 0, is_transcribing := true }

/-- Effect of `handle_message` (lines 450-529) on the counter fields:
`file_done` increments `files_done`; `all_done` and `error` clear
`is_transcribing`; every other event only touches labels and bars. -/
def handle_message (s : UIState) (e : Event) : UIState :=
  match e with
  | Event.file_done _ _ _ _ => { s with files_done := s.files_done + 1 }
  | Event.all_done => { s with is_transcribing := false }
  | Event.error _ => { s with is_transcribing := false }
  | _ => s

/-- Event classifiers used by the claims. -/
def is_error_event : Event → Bool
  | Event.error _ => true
  | _ => false

def is_file_done_event : Event → Bool
  | Event.file_done _ _ _ _ => true
  | _ => false

/-- Supported audio extensions, src/transcribe.py line 16. -/
def SUPPORTED_EXTS : List String :=
  [".mp3", ".wav", ".m4a", ".mp4", ".aac", ".flac", ".ogg"]

/-- Python `Path(p).suffix`: the extension of the final component, with
the dot, empty when the last dot is at position 0 or at the very end or
absent (CPython: `name[i:]` if `0 < i < len(name) - 1` where `i =
name.rfind(chr(46))`). -/
def path_suffix (p : String) : String :=
  let cs := (path_name p).toList
  match cs.reverse.findIdx? (fun c => c == Char.ofNat 46) with
  | none => ""
  | some r =>
    let i := cs.length - 1 - r
    if 0 < i ∧ i + 1 < cs.length then String.mk (cs.drop i) else ""

/-- Comparison key the duplicate check uses for an already-staged entry,
src/transcribe.py line 288: `f.resolve() if f.exists() else f`.
Resolution is modelled as total on paths that exist. -/
def staged_key (fs_exists : String → Bool) (fs_resolve : String → Option String)
    (f : String) : String :=
  if fs_exists f then (fs_resolve f).getD f else f

/-- Comparison key for the path being added, lines 282-285: `resolved =
path_obj.resolve()` with the raw path as fallback when resolution
raises (`none`). -/
def new_key (fs_resolve : String → Option String) (p : String) : String :=
  (fs_resolve p).getD p

/-- One iteration of the selection loop in `on_select_files`
(src/transcribe.py lines 276-294): drop unsupported extensions, skip the
path when its resolved key matches the key of an already-staged entry,
otherwise append it. -/
def select_step (fs_exists : String → Bool) (fs_resolve : String → Option String)
    (staged : List String) (p : String) : List String :=
  if ¬ (py_lower (path_suffix p) ∈ SUPPORTED_EXTS) then staged
  else if staged.any (fun f => staged_key fs_exists fs_resolve f == new_key fs_resolve p)
    then staged
  else staged ++ [p]

/-- Selection handler restricted to its staged-list effect: fold the
selected paths through the per-path step. -/
def on_select_files (fs_exists : String → Bool) (fs_resolve : String → Option String)
    (staged : List String) (filepaths : List String) : List String :=
  filepaths.foldl (select_step fs_exists fs_resolve) staged

/-- Outcome of reading the configuration file in `load_output_dir`:
the file is absent, or opening/parsing raises, or a JSON object is
parsed whose `output_dir` key is optional. -/
inductive ConfigRead where
  | absent
  | unreadable
  | parsed (output_dir : Option String)
  deriving Repr, DecidableEq

/-- Python path construction: `Path("")` is the path `"."`. -/
def path_of_string (s : String) : String :=
  if s = "" then "." else s

/-- Effective output directory at startup, src/transcribe.py lines
25-43: when the config parses, take `data.get("output_dir", "")` as a
path and return it when it exists and is a directory; in every other
case fall back to the default downloads location (`Path.home() /
"Downloads"`, created if absent — creation is modelled away). -/
def load_output_dir (home : String) (exists_and_is_dir : String → Bool)
    (cfg : ConfigRead) : String :=
  match cfg with
  | ConfigRead.parsed kv =>
    let out := path_of_string (kv.getD "")
    if exists_and_is_dir out then out else home ++ "/Downloads"
  | _ => home ++ "/Downloads"

/-- Configuration written by `save_output_dir`, lines 46-55: a JSON
object with the single key `output_dir` holding the given path (the
silently-ignored write failure keeps the old config and is modelled
away). -/
def save_output_dir (output_dir : String) : ConfigRead :=
  ConfigRead.parsed (some output_dir)

/-- Concrete engine result used by witness runs: one non-blank segment
ending at 5s of a 10s file. -/
def eg_result : TranscribeResult :=
  { duration := some 10, segments := [{ text := " hello ", end_ := some 5 }] }

/-- Concrete engine that succeeds on every file. -/
def eg_ok_engine : String → Except String TranscribeResult :=
  fun _ => Except.ok eg_result

/-- Concrete engine that raises on `b.mp3` and succeeds elsewhere. -/
def eg_fail_engine : String → Except String TranscribeResult :=
  fun p => if p = "b.mp3" then Except.error "boom" else Except.ok eg_result

/-- Engine result with only blank segments, used as a concrete input. -/
def eg_blank_result : TranscribeResult :=
  { duration := some 10, segments := [{ text := "   ", end_ := some 5 }] }

def eg_blank_engine : String → Except String TranscribeResult :=
  fun _ => Except.ok eg_blank_result

/-! Helper lemmas shared by the claim theorems. -/

theorem processSegments_eq (d : ℚ) (segs : List Segment) :
    processSegments d segs = (transcript_lines segs, seg_events d segs) := by
  induction segs with
  | nil => rfl
  | cons s rest ih =>
    by_cases h : py_strip s.text = ""
    · simp [processSegments, transcript_lines, seg_events, List.filterMap_cons, h, ih]
    · simp [processSegments, transcript_lines, seg_events, List.filterMap_cons, h, ih]

theorem mem_seg_events {d : ℚ} {segs : List Segment} {e : Event}
    (h : e ∈ seg_events d segs) :
    ∃ s ∈ segs, py_strip s.text ≠ "" ∧
      e = Event.segment (py_strip s.text) (segPercent d s.end_) := by
  simp only [seg_events, List.mem_filterMap] at h
  obtain ⟨s, hs, hf⟩ := h
  by_cases ht : py_strip s.text = ""
  · simp [ht] at hf
  · simp only [ht, if_false, Option.some_inj] at hf
    exact ⟨s, hs, ht, hf.symm⟩

theorem seg_events_countP_error (d : ℚ) (segs : List Segment) :
    (seg_events d segs).countP is_error_event = 0 := by
  rw [List.countP_eq_zero]
  intro e he
  obtain ⟨s, _, _, rfl⟩ := mem_seg_events he
  simp [is_error_event]

theorem seg_events_countP_done (d : ℚ) (segs : List Segment) :
    (seg_events d segs).countP is_file_done_event = 0 := by
  rw [List.countP_eq_zero]
  intro e he
  obtain ⟨s, _, _, rfl⟩ := mem_seg_events he
  simp [is_file_done_event]

theorem workerLoop_split (engine : String → Except String TranscribeResult)
    (od : String) (ts : Nat → String) (total : Nat) :
    ∀ (files : List String) (idx : Nat), ∃ pre : List Event,
      (∀ e ∈ pre, is_error_event e = false) ∧
      ((workerLoop engine od ts total idx files).1 = pre ∨
       ∃ m, (workerLoop engine od ts total idx files).1 = pre ++ [Event.error m]) := by
  intro files
  induction files with
  | nil =>
    intro idx
    refine ⟨[Event.all_done], ?_, Or.inl rfl⟩
    intro e he
    simp only [List.mem_singleton] at he
    subst he; rfl
  | cons p rest ih =>
    intro idx
    cases heng : engine p with
    | error e =>
      refine ⟨[Event.file_start idx total (path_name p)], ?_, Or.inr ⟨e, ?_⟩⟩
      · intro x hx
        simp only [List.mem_singleton] at hx
        subst hx; rfl
      · simp [workerLoop, heng]
    | ok res =>
      obtain ⟨pre, hpre, hcase⟩ := ih (idx + 1)
      refine ⟨Event.file_start idx total (path_name p) ::
        (processSegments (res.duration.getD 0) res.segments).2 ++
        Event.file_done idx total (path_name p)
          (od ++ "/" ++ out_name idx (ts idx)) :: pre, ?_, ?_⟩
      · intro x hx
        rcases List.mem_cons.mp hx with rfl | hx
        · rfl
        rcases List.mem_append.mp hx with hx | hx
        · rw [processSegments_eq] at hx
          obtain ⟨s, _, _, rfl⟩ := mem_seg_events hx
          rfl
        rcases List.mem_cons.mp hx with rfl | hx
        · rfl
        · exact hpre x hx
      · rcases hcase with h | ⟨m, h⟩
        · left; simp [workerLoop, heng, h]
        · right
          exact ⟨m, by simp [workerLoop, heng, h, List.append_assoc]⟩

theorem workerLoop_counts (engine : String → Except String TranscribeResult)
    (od : String) (ts : Nat → String) (total : Nat) :
    ∀ (files : List String) (idx : Nat),
      (∀ e ∈ (workerLoop engine od ts total idx files).1, is_error_event e = false) →
      (workerLoop engine od ts total idx files).1.countP is_file_done_event = files.length ∧
      (workerLoop engine od ts total idx files).2.length = files.length := by
  intro files
  induction files with
  | nil =>
    intro idx _
    constructor
    · simp [workerLoop, List.countP_cons, is_file_done_event]
    · simp [workerLoop]
  | cons p rest ih =>
    intro idx hok
    cases heng : engine p with
    | error e =>
      exfalso
      have := hok (Event.error e) (by simp [workerLoop, heng])
      simp [is_error_event] at this
    | ok res =>
      have hrec := ih (idx + 1) ?_
      · constructor
        · have h1 := hrec.1
          simp [workerLoop, heng, List.countP_cons, List.countP_append,
            processSegments_eq, seg_events_countP_done, h1, is_file_done_event]
        · have h2 := hrec.2
          simp [workerLoop, heng, h2]
      · intro e he
        apply hok e
        simp [workerLoop, heng, he]

theorem workerLoop_countP_done_le (engine : String → Except String TranscribeResult)
    (od : String) (ts : Nat → String) (total : Nat) :
    ∀ (files : List String) (idx : Nat),
      (workerLoop engine od ts total idx files).1.countP is_file_done_event ≤
        files.length := by
  intro files
  induction files with
  | nil =>
    intro idx
    simp [workerLoop, List.countP_cons, is_file_done_event]
  | cons p rest ih =>
    intro idx
    cases heng : engine p with
    | error e =>
      simp [workerLoop, heng, List.countP_cons, is_file_done_event]
    | ok res =>
      have hle := ih (idx + 1)
      simp [workerLoop, heng, List.countP_cons, List.countP_append,
        processSegments_eq, seg_events_countP_done, is_file_done_event]
      omega

theorem workerLoop_writes (engine : String → Except String TranscribeResult)
    (od : String) (ts : Nat → String) (total : Nat) :
    ∀ (files : List String) (idx i : Nat) (w : WriteOp),
      (workerLoop engine od ts total idx files).2[i]? = some w →
      ∃ p res, files[i]? = some p ∧ engine p = Except.ok res ∧
        w = ⟨od ++ "/" ++ out_name (idx + i) (ts (idx + i)),
             transcript_content (transcript_lines res.segments)⟩ := by
  intro files
  induction files with
  | nil =>
    intro idx i w h
    simp [workerLoop] at h
  | cons p rest ih =>
    intro idx i w h
    cases heng : engine p with
    | error e => simp [workerLoop, heng] at h
    | ok res =>
      simp only [workerLoop, heng] at h
      cases i with
      | zero =>
        simp only [List.getElem?_cons_zero, Option.some_inj] at h
        refine ⟨p, res, by simp, heng, ?_⟩
        rw [← h]
        simp [processSegments_eq]
      | succ i =>
        simp only [List.getElem?_cons_succ] at h
        obtain ⟨q, res2, hq, heng2, hw⟩ := ih (idx + 1) i w h
        refine ⟨q, res2, by simpa using hq, heng2, ?_⟩
        have harith : idx + 1 + i = idx + (i + 1) := by omega
        rw [hw, harith]

theorem workerLoop_writes_length_le (engine : String → Except String TranscribeResult)
    (od : String) (ts : Nat → String) (total : Nat) :
    ∀ (files : List String) (idx : Nat),
      (workerLoop engine od ts total idx files).2.length ≤ files.length := by
  intro files
  induction files with
  | nil => intro idx; simp [workerLoop]
  | cons p rest ih =>
    intro idx
    cases heng : engine p with
    | error e => simp [workerLoop, heng]
    | ok res =>
      have := ih (idx + 1)
      simp only [workerLoop, heng, List.length_cons]
      omega

theorem handle_message_files_done (s : UIState) (e : Event) :
    (handle_message s e).files_done =
      s.files_done + (if is_file_done_event e then 1 else 0) := by
  cases e <;> rfl

theorem foldl_handle_message_files_done :
    ∀ (evs : List Event) (s : UIState),
      (List.foldl handle_message s evs).files_done =
        s.files_done + evs.countP is_file_done_event := by
  intro evs
  induction evs with
  | nil => intro s; simp
  | cons e rest ih =>
    intro s
    simp only [List.foldl_cons, List.countP_cons, ih, handle_message_files_done]
    by_cases h : is_file_done_event e
    · simp [h]; omega
    · simp [h]

theorem foldl_select_pairwise (fs_exists : String → Bool)
    (fs_resolve : String → Option String) (hex : ∀ p, fs_exists p = true) :
    ∀ (adds staged : List String),
      staged.Pairwise (fun a b => new_key fs_resolve a ≠ new_key fs_resolve b) →
      (List.foldl (select_step fs_exists fs_resolve) staged adds).Pairwise
        (fun a b => new_key fs_resolve a ≠ new_key fs_resolve b) := by
  intro adds
  induction adds with
  | nil => intro staged h; simpa using h
  | cons p rest ih =>
    intro staged h
    simp only [List.foldl_cons]
    apply ih
    unfold select_step
    by_cases h1 : ¬ (py_lower (path_suffix p) ∈ SUPPORTED_EXTS)
    · rw [if_pos h1]; exact h
    · rw [if_neg h1]
      cases hany : staged.any
          (fun f => staged_key fs_exists fs_resolve f == new_key fs_resolve p) with
      | true => simp only [hany, if_true]; exact h
      | false =>
        simp only [hany, if_false, Bool.false_eq_true]
        rw [List.pairwise_append]
        refine ⟨h, List.pairwise_singleton _ _, ?_⟩
        intro a ha b hb
        simp only [List.mem_singleton] at hb
        rw [hb]
        intro hcontra
        have : staged.any
            (fun f => staged_key fs_exists fs_resolve f == new_key fs_resolve p) = true := by
          rw [List.any_eq_true]
          refine ⟨a, ha, ?_⟩
          rw [beq_iff_eq]
          have hk : staged_key fs_exists fs_resolve a = new_key fs_resolve a := by
            simp [staged_key, new_key, hex a]
          rw [hk]
          exact hcontra
        rw [hany] at this
        exact Bool.false_ne_true this

/-! Claim theorems. -/

/-- Claim C2: for every speech segment with non-empty text, the
percentage carried by its `segment` event equals clamp(segment_end_time
/ total_duration * 100, 0, 100) rounded down to an integer, and equals 0
whenever the total duration is unknown or non-positive; in particular,
with duration 100 seconds and a segment ending at 42.5 seconds the
reported percent is 42.  The first conjunct relates the code computation
(on `info.duration or 0.0`) to the formula as the spec words it, the
second ties every emitted `segment` event to that computation, the third
is the concrete instance. -/
theorem C2_segment_percent (d : Option ℚ) (e : ℚ) (dur : ℚ) (segs : List Segment)
    (t : String) (pc : ℤ)
    (hmem : Event.segment t pc ∈ (processSegments dur segs).2) :
    segPercent (Option.getD d 0) (some e) = spec_percent d e ∧
    (∃ s ∈ segs, t = py_strip s.text ∧ pc = segPercent dur s.end_) ∧
    segPercent 100 (some (85 / 2)) = 42 := by
  refine ⟨?_, ?_, by norm_num [segPercent]⟩
  · cases d with
    | none => simp [segPercent, spec_percent]
    | some dv =>
      simp only [Option.getD_some, segPercent, spec_percent]
      by_cases h : 0 < dv
      · rw [if_pos h, if_neg (not_le.mpr h)]
      · rw [if_neg h, if_pos (not_lt.mp h)]
  · rw [processSegments_eq] at hmem
    obtain ⟨s, hs, ht, heq⟩ := mem_seg_events hmem
    simp only [Event.segment.injEq] at heq
    exact ⟨s, hs, heq.1, heq.2⟩

/-- Witness for C2 at duration 100 and a segment ending at 42.5s. -/
theorem C2_segment_percent_witness :
    (Event.segment "hi" 42 ∈
      (processSegments 100 [({ text := "hi", end_ := some (85 / 2) } : Segment)]).2) ∧
    (segPercent (Option.getD (some 100) 0) (some (85 / 2)) = spec_percent (some 100) (85 / 2) ∧
     (∃ s ∈ [({ text := "hi", end_ := some (85 / 2) } : Segment)],
        "hi" = py_strip s.text ∧ (42 : ℤ) = segPercent 100 s.end_) ∧
     segPercent 100 (some (85 / 2)) = 42) := by
  have hpc : segPercent 100 (some (85 / 2)) = 42 := by norm_num [segPercent]
  have hmem : Event.segment "hi" 42 ∈
      (processSegments 100 [({ text := "hi", end_ := some (85 / 2) } : Segment)]).2 := by
    simp [processSegments, py_strip, hpc]
  exact ⟨hmem, C2_segment_percent (some 100) (85 / 2) 100
    [({ text := "hi", end_ := some (85 / 2) } : Segment)] "hi" 42 hmem⟩

/-- Claim C10: for every segment with non-empty text, if the reported
total duration is positive but the segment end timestamp is `None`, the
emitted `segment` event carries percent 0 rather than a computed
percentage (the second conjunct: the percent computation yields 0 on a
missing end timestamp whatever the duration). -/
theorem C10_missing_end_percent_zero (dur : ℚ) (s : Segment)
    (_hd : 0 < dur) (hend : s.end_ = none) (ht : py_strip s.text ≠ "") :
    (processSegments dur [s]).2 = [Event.segment (py_strip s.text) 0] ∧
    ∀ d : ℚ, segPercent d none = 0 := by
  constructor
  · simp [processSegments, ht, hend, segPercent]
  · intro d; rfl

/-- Witness for C10 at duration 10 and a segment with no end timestamp. -/
theorem C10_missing_end_percent_zero_witness :
    ((0 : ℚ) < 10 ∧ ({ text := "hi", end_ := none } : Segment).end_ = none ∧
      py_strip ({ text := "hi", end_ := none } : Segment).text ≠ "") ∧
    ((processSegments 10 [({ text := "hi", end_ := none } : Segment)]).2 =
        [Event.segment (py_strip ({ text := "hi", end_ := none } : Segment).text) 0] ∧
      ∀ d : ℚ, segPercent d none = 0) :=
  ⟨⟨by norm_num, rfl, by decide⟩,
    C10_missing_end_percent_zero 10 { text := "hi", end_ := none }
      (by norm_num) rfl (by decide)⟩

/-- Claim C8: for every input file whose transcription yields no
non-empty segments, the output transcript file is still created and is
empty (zero lines written): a single-file run whose engine result has
only blank segments produces exactly one write, at the usual output
path, with empty content. -/
theorem C8_blank_segments_empty_file (engine : String → Except String TranscribeResult)
    (od : String) (ts : Nat → String) (f : String) (res : TranscribeResult)
    (h : engine f = Except.ok res)
    (hblank : ∀ s ∈ res.segments, py_strip s.text = "") :
    (worker_transcribe_all (Except.ok ()) engine od ts [f]).2 =
      [⟨od ++ "/" ++ out_name 1 (ts 1), ""⟩] := by
  have hlines : transcript_lines res.segments = [] := by
    simp only [transcript_lines, List.filterMap_eq_nil_iff]
    intro s hs
    simp [hblank s hs]
  simp [worker_transcribe_all, workerLoop, h, processSegments_eq, hlines,
    transcript_content, String.join]

/-- Witness for C8: blank-only engine output on one file. -/
theorem C8_blank_segments_empty_file_witness :
    (eg_blank_engine "a.mp3" = Except.ok eg_blank_result) ∧
    (∀ s ∈ eg_blank_result.segments, py_strip s.text = "") ∧
    (worker_transcribe_all (Except.ok ()) eg_blank_engine
        "/out" (fun _ => "120000") ["a.mp3"]).2 =
      [⟨"/out" ++ "/" ++ out_name 1 ((fun _ : Nat => "120000") 1), ""⟩] :=
  ⟨rfl, by decide,
    C8_blank_segments_empty_file eg_blank_engine "/out" (fun _ => "120000") "a.mp3"
      eg_blank_result rfl (by decide)⟩

/-- Claim C7 counterexample: staging the same non-existing path twice
appends it twice.  With every path reported as not existing and
resolution mapping everything to the absolute path "/abs/x.mp3", the
duplicate check compares the raw staged entry "x.mp3" against the
resolved new path "/abs/x.mp3", finds them different, and appends the
second copy — after which the staged list holds two entries that
resolve to the same absolute path. -/
theorem C7_duplicate_staged_counterexample :
    on_select_files (fun _ => false) (fun _ => some "/abs/x.mp3") []
        ["x.mp3", "x.mp3"] = ["x.mp3", "x.mp3"] ∧
    ¬ (on_select_files (fun _ => false) (fun _ => some "/abs/x.mp3") []
        ["x.mp3", "x.mp3"]).Pairwise
      (fun a b => new_key (fun _ => some "/abs/x.mp3") a ≠
        new_key (fun _ => some "/abs/x.mp3") b) := by
  have hl : on_select_files (fun _ => false) (fun _ => some "/abs/x.mp3") []
      ["x.mp3", "x.mp3"] = ["x.mp3", "x.mp3"] := by decide
  refine ⟨hl, ?_⟩
  rw [hl]
  intro hp
  exact (List.pairwise_cons.mp hp).1 "x.mp3" (by simp) rfl

/-- Claim C7 amended: when every staged path exists on disk (so the
duplicate check resolves staged entries the same way it resolves the
path being added), the staged list never contains two entries that
resolve to the same absolute path; and, unconditionally, an addition
whose resolved path equals the comparison key of an already-staged
entry is not appended. -/
theorem C7_no_duplicate_staged (fs_exists : String → Bool)
    (fs_resolve : String → Option String) (filepaths : List String) :
    ((∀ p, fs_exists p = true) →
      (on_select_files fs_exists fs_resolve [] filepaths).Pairwise
        (fun a b => new_key fs_resolve a ≠ new_key fs_resolve b)) ∧
    (∀ (staged : List String) (p : String),
      (∃ f ∈ staged, staged_key fs_exists fs_resolve f = new_key fs_resolve p) →
      select_step fs_exists fs_resolve staged p = staged) := by
  constructor
  · intro hex
    exact foldl_select_pairwise fs_exists fs_resolve hex filepaths [] (by simp)
  · rintro staged p ⟨f, hf, hkey⟩
    unfold select_step
    by_cases h1 : ¬ (py_lower (path_suffix p) ∈ SUPPORTED_EXTS)
    · rw [if_pos h1]
    · rw [if_neg h1]
      have hany : staged.any
          (fun g => staged_key fs_exists fs_resolve g == new_key fs_resolve p) = true := by
        rw [List.any_eq_true]
        exact ⟨f, hf, by rw [beq_iff_eq]; exact hkey⟩
      simp only [hany, if_true]

/-- Witness for C7 amended: the theorem instantiated at a concrete
filesystem, plus the unconditional half applied to a non-existing
staged entry whose raw path equals the resolved new path — re-adding
is a no-op even in the raw-key case. -/
theorem C7_no_duplicate_staged_witness :
    (((∀ p : String, (fun _ : String => true) p = true) →
      (on_select_files (fun _ => true) (fun q => some ("/abs/" ++ q)) []
          ["a.mp3", "b.mp3"]).Pairwise
        (fun a b => new_key (fun q => some ("/abs/" ++ q)) a ≠
          new_key (fun q => some ("/abs/" ++ q)) b)) ∧
    (∀ (staged : List String) (p : String),
      (∃ f ∈ staged, staged_key (fun _ => true) (fun q => some ("/abs/" ++ q)) f =
        new_key (fun q => some ("/abs/" ++ q)) p) →
      select_step (fun _ => true) (fun q => some ("/abs/" ++ q)) staged p = staged)) ∧
    select_step (fun _ => false) (fun _ => some "/abs/x.mp3")
      ["/abs/x.mp3"] "x.mp3" = ["/abs/x.mp3"] :=
  ⟨C7_no_duplicate_staged (fun _ => true) (fun q => some ("/abs/" ++ q))
      ["a.mp3", "b.mp3"],
    (C7_no_duplicate_staged (fun _ => false) (fun _ => some "/abs/x.mp3") []).2
      ["/abs/x.mp3"] "x.mp3" ⟨"/abs/x.mp3", by simp, by decide⟩⟩

/-- Claim C9: the round-trip part holds — saving a directory path to the
configuration and loading while it still exists and is a directory
yields that same path.  However, the fallback part is contradicted by
the code: when the configuration parses but the `output_dir` key is
missing, `Path(data.get("output_dir", ""))` is `Path(".")`, which
exists and is a directory, so load returns "." (the process working
directory) instead of the default downloads location, contradicting the
docstring "Falls back to Downloads if missing/invalid". -/
theorem C9_config_round_trip_and_key_missing :
    (∀ (home : String) (is_dir : String → Bool) (d : String), d ≠ "" →
      is_dir d = true →
      load_output_dir home is_dir (save_output_dir d) = d) ∧
    load_output_dir "/home/user" (fun _ => true) (ConfigRead.parsed none) = "." ∧
    "." ≠ "/home/user" ++ "/Downloads" ∧
    load_output_dir "/home/user" (fun _ => false) ConfigRead.absent =
      "/home/user" ++ "/Downloads" ∧
    load_output_dir "/home/user" (fun _ => false) ConfigRead.unreadable =
      "/home/user" ++ "/Downloads" ∧
    (∀ (home : String) (is_dir : String → Bool) (p : String), p ≠ "" →
      is_dir p = false →
      load_output_dir home is_dir (ConfigRead.parsed (some p)) =
        home ++ "/Downloads") := by
  refine ⟨?_, by decide, by decide, rfl, rfl, ?_⟩
  · intro home is_dir d hne hdir
    simp [load_output_dir, save_output_dir, path_of_string, hne, hdir]
  · intro home is_dir p hne hdir
    simp [load_output_dir, path_of_string, hne, hdir]

/-- Claim C4: for every input file processed without error, the worker
writes exactly one output file: the i-th write (0-based) of any run
belongs to the i-th input file, its engine call succeeded, its path is
the configured output directory joined with Call(i+1)_(timestamp).txt,
and its content is each non-empty stripped segment line followed by a
blank line, in segment order; moreover there are never more writes than
input files. -/
theorem C4_output_write_per_file (load_model : Except String Unit)
    (engine : String → Except String TranscribeResult)
    (od : String) (ts : Nat → String) (files : List String) (i : Nat) (w : WriteOp)
    (h : (worker_transcribe_all load_model engine od ts files).2[i]? = some w) :
    (∃ p res, files[i]? = some p ∧ engine p = Except.ok res ∧
      w = ⟨od ++ "/" ++ out_name (i + 1) (ts (i + 1)),
           transcript_content (transcript_lines res.segments)⟩) ∧
    (worker_transcribe_all load_model engine od ts files).2.length ≤ files.length := by
  cases load_model with
  | error e => simp [worker_transcribe_all] at h
  | ok _ =>
    simp only [worker_transcribe_all] at h ⊢
    constructor
    · obtain ⟨p, res, hp, heng, hw⟩ :=
        workerLoop_writes engine od ts files.length files 1 i w h
      refine ⟨p, res, hp, heng, ?_⟩
      rw [hw]
      have harith : 1 + i = i + 1 := by omega
      rw [harith]
    · exact workerLoop_writes_length_le engine od ts files.length files 1

/-- Witness for C4: a one-file run with a non-blank segment. -/
theorem C4_output_write_per_file_witness :
    ((worker_transcribe_all (Except.ok ()) eg_ok_engine "/out" (fun _ => "120000")
        ["a.mp3"]).2[0]? =
      some ⟨"/out" ++ "/" ++ out_name 1 "120000", "hello\n\n"⟩) ∧
    ((∃ p res, (["a.mp3"] : List String)[0]? = some p ∧
        eg_ok_engine p = Except.ok res ∧
        (⟨"/out" ++ "/" ++ out_name 1 "120000", "hello\n\n"⟩ : WriteOp) =
          ⟨"/out" ++ "/" ++ out_name (0 + 1) ((fun _ : Nat => "120000") (0 + 1)),
           transcript_content (transcript_lines res.segments)⟩) ∧
      (worker_transcribe_all (Except.ok ()) eg_ok_engine "/out" (fun _ => "120000")
        ["a.mp3"]).2.length ≤ (["a.mp3"] : List String).length) := by
  have h : (worker_transcribe_all (Except.ok ()) eg_ok_engine "/out"
      (fun _ => "120000") ["a.mp3"]).2[0]? =
      some ⟨"/out" ++ "/" ++ out_name 1 "120000", "hello\n\n"⟩ := by decide
  exact ⟨h, C4_output_write_per_file (Except.ok ()) eg_ok_engine "/out"
    (fun _ => "120000") ["a.mp3"] 0 _ h⟩

/-- Claim C3: for every run that completes without error (no `error`
event among the emitted events), the value of `files_done` after the
UI controller has processed the whole event stream starting from the
run-start state equals the length of the run snapshot (the `all_done`
handler does not change `files_done`, so this is also its value when
`all_done` is processed), and the worker produced exactly one output
write per snapshot element. -/
theorem C3_run_counts (load_model : Except String Unit)
    (engine : String → Except String TranscribeResult)
    (od : String) (ts : Nat → String) (files : List String)
    (hok : ∀ e ∈ (worker_transcribe_all load_model engine od ts files).1,
      is_error_event e = false) :
    (List.foldl handle_message (start_run_state files)
        (worker_transcribe_all load_model engine od ts files).1).files_done =
      files.length ∧
    (worker_transcribe_all load_model engine od ts files).2.length = files.length := by
  cases load_model with
  | error e =>
    exfalso
    have := hok (Event.error e) (by simp [worker_transcribe_all])
    simp [is_error_event] at this
  | ok _ =>
    have hloop := workerLoop_counts engine od ts files.length files 1 ?_
    · constructor
      · rw [foldl_handle_message_files_done]
        simp [worker_transcribe_all, start_run_state, List.countP_cons,
          is_file_done_event, hloop.1]
      · simp [worker_transcribe_all, hloop.2]
    · intro e he
      apply hok e
      simp [worker_transcribe_all, he]

/-- Witness for C3: an error-free one-file run. -/
theorem C3_run_counts_witness :
    (∀ e ∈ (worker_transcribe_all (Except.ok ()) eg_ok_engine "/out"
        (fun _ => "120000") ["a.mp3"]).1, is_error_event e = false) ∧
    ((List.foldl handle_message (start_run_state ["a.mp3"])
        (worker_transcribe_all (Except.ok ()) eg_ok_engine "/out"
          (fun _ => "120000") ["a.mp3"]).1).files_done = 1 ∧
      (worker_transcribe_all (Except.ok ()) eg_ok_engine "/out"
        (fun _ => "120000") ["a.mp3"]).2.length = 1) := by
  have hok : ∀ e ∈ (worker_transcribe_all (Except.ok ()) eg_ok_engine "/out"
      (fun _ => "120000") ["a.mp3"]).1, is_error_event e = false := by decide
  exact ⟨hok, C3_run_counts (Except.ok ()) eg_ok_engine "/out"
    (fun _ => "120000") ["a.mp3"] hok⟩

/-- Claim C6: within every run, `files_done` never exceeds
`total_files`: after the UI controller has processed any prefix of the
worker event stream from the run-start state, `files_done` is at most
`total_files`; at run start `files_done` is 0 and `total_files` is the
snapshot length; `handle_message` changes `files_done` only on
`file_done` (by exactly one); and the worker emits at most one
`file_done` event per snapshot element. -/
theorem C6_files_done_le_total (load_model : Except String Unit)
    (engine : String → Except String TranscribeResult)
    (od : String) (ts : Nat → String) (files : List String)
    (p suf : List Event)
    (hsplit : (worker_transcribe_all load_model engine od ts files).1 = p ++ suf) :
    (List.foldl handle_message (start_run_state files) p).files_done ≤
      (start_run_state files).total_files ∧
    (start_run_state files).files_done = 0 ∧
    (start_run_state files).total_files = files.length ∧
    (∀ (s : UIState) (e : Event), is_file_done_event e = false →
      (handle_message s e).files_done = s.files_done) ∧
    (∀ (s : UIState) (i t : Nat) (n o : String),
      (handle_message s (Event.file_done i t n o)).files_done = s.files_done + 1) ∧
    (worker_transcribe_all load_model engine od ts files).1.countP
      is_file_done_event ≤ files.length := by
  have hcount : (worker_transcribe_all load_model engine od ts files).1.countP
      is_file_done_event ≤ files.length := by
    cases load_model with
    | error e =>
      simp [worker_transcribe_all, List.countP_cons, is_file_done_event]
    | ok _ =>
      have hle := workerLoop_countP_done_le engine od ts files.length files 1
      simpa [worker_transcribe_all, List.countP_cons, is_file_done_event] using hle
  refine ⟨?_, rfl, rfl, ?_, fun s i t n o => rfl, hcount⟩
  · rw [foldl_handle_message_files_done]
    have hle2 : p.countP is_file_done_event ≤
        (worker_transcribe_all load_model engine od ts files).1.countP
          is_file_done_event := by
      rw [hsplit, List.countP_append]
      omega
    simp only [start_run_state]
    omega
  · intro s e he
    cases e <;> simp_all [handle_message, is_file_done_event]

/-- Witness for C6: the whole event stream of a one-file run as the
prefix. -/
theorem C6_files_done_le_total_witness :
    ((worker_transcribe_all (Except.ok ()) eg_ok_engine "/out" (fun _ => "120000")
        ["a.mp3"]).1 =
      (worker_transcribe_all (Except.ok ()) eg_ok_engine "/out" (fun _ => "120000")
        ["a.mp3"]).1 ++ []) ∧
    ((List.foldl handle_message (start_run_state ["a.mp3"])
        (worker_transcribe_all (Except.ok ()) eg_ok_engine "/out" (fun _ => "120000")
          ["a.mp3"]).1).files_done ≤
      (start_run_state ["a.mp3"]).total_files ∧
    (start_run_state ["a.mp3"]).files_done = 0 ∧
    (start_run_state ["a.mp3"]).total_files = 1 ∧
    (∀ (s : UIState) (e : Event), is_file_done_event e = false →
      (handle_message s e).files_done = s.files_done) ∧
    (∀ (s : UIState) (i t : Nat) (n o : String),
      (handle_message s (Event.file_done i t n o)).files_done = s.files_done + 1) ∧
    (worker_transcribe_all (Except.ok ()) eg_ok_engine "/out" (fun _ => "120000")
      ["a.mp3"]).1.countP is_file_done_event ≤ 1) := by
  have hsplit : (worker_transcribe_all (Except.ok ()) eg_ok_engine "/out"
      (fun _ => "120000") ["a.mp3"]).1 =
      (worker_transcribe_all (Except.ok ()) eg_ok_engine "/out"
        (fun _ => "120000") ["a.mp3"]).1 ++ [] := (List.append_nil _).symm
  exact ⟨hsplit, C6_files_done_le_total (Except.ok ()) eg_ok_engine "/out"
    (fun _ => "120000") ["a.mp3"] _ [] hsplit⟩

/-- Claim C1: any exception aborts the remaining input sequence and
yields exactly one `error` event which ends the stream (first conjunct,
for every run: the event stream is an error-free list, possibly
followed by a single final `error` event).  In the 3-file scenario
where the 2nd file raises during engine invocation: the stream is
exactly two status events, `file_start` for file 1, its segment events,
one `file_done` for file 1, `file_start` for file 2, then the `error`
event; there is exactly one `file_done` (for file 1), exactly one
`error`, the `error` is the last event, and no `file_start` for file 3
(every started index is at most 2). -/
theorem C1_error_fail_fast (load_model : Except String Unit)
    (engine : String → Except String TranscribeResult)
    (od : String) (ts : Nat → String)
    (f1 f2 f3 msg : String) (r1 : TranscribeResult)
    (hload : load_model = Except.ok ())
    (h1 : engine f1 = Except.ok r1)
    (h2 : engine f2 = Except.error msg) :
    (∀ (lm : Except String Unit) (eng : String → Except String TranscribeResult)
      (od2 : String) (ts2 : Nat → String) (fs : List String),
      ∃ pre : List Event,
        (∀ e ∈ pre, is_error_event e = false) ∧
        ((worker_transcribe_all lm eng od2 ts2 fs).1 = pre ∨
          ∃ m, (worker_transcribe_all lm eng od2 ts2 fs).1 = pre ++ [Event.error m])) ∧
    (worker_transcribe_all load_model engine od ts [f1, f2, f3]).1 =
      [Event.status "Loading model (small, int8 on CPU)...",
       Event.status "Model loaded. Starting transcription...",
       Event.file_start 1 3 (path_name f1)] ++
      seg_events (r1.duration.getD 0) r1.segments ++
      [Event.file_done 1 3 (path_name f1) (od ++ "/" ++ out_name 1 (ts 1)),
       Event.file_start 2 3 (path_name f2),
       Event.error msg] ∧
    (worker_transcribe_all load_model engine od ts [f1, f2, f3]).1.countP
      is_file_done_event = 1 ∧
    (worker_transcribe_all load_model engine od ts [f1, f2, f3]).1.countP
      is_error_event = 1 ∧
    (worker_transcribe_all load_model engine od ts [f1, f2, f3]).1.getLast? =
      some (Event.error msg) ∧
    (∀ (i t : Nat) (n o : String), Event.file_done i t n o ∈
      (worker_transcribe_all load_model engine od ts [f1, f2, f3]).1 → i = 1) ∧
    (∀ (i t : Nat) (n : String), Event.file_start i t n ∈
      (worker_transcribe_all load_model engine od ts [f1, f2, f3]).1 → i ≤ 2) := by
  constructor
  · intro lm eng od2 ts2 fs
    cases lm with
    | error e =>
      refine ⟨[Event.status "Loading model (small, int8 on CPU)..."], ?_,
        Or.inr ⟨e, by simp [worker_transcribe_all]⟩⟩
      intro x hx
      simp only [List.mem_singleton] at hx
      rw [hx]; rfl
    | ok _ =>
      obtain ⟨pre, hpre, hcase⟩ := workerLoop_split eng od2 ts2 fs.length fs 1
      refine ⟨Event.status "Loading model (small, int8 on CPU)..." ::
        Event.status "Model loaded. Starting transcription..." :: pre, ?_, ?_⟩
      · intro x hx
        rcases List.mem_cons.mp hx with rfl | hx
        · rfl
        rcases List.mem_cons.mp hx with rfl | hx
        · rfl
        · exact hpre x hx
      · rcases hcase with hcase | ⟨m, hcase⟩
        · left; simp [worker_transcribe_all, hcase]
        · right; exact ⟨m, by simp [worker_transcribe_all, hcase]⟩
  have hevs : (worker_transcribe_all load_model engine od ts [f1, f2, f3]).1 =
      [Event.status "Loading model (small, int8 on CPU)...",
       Event.status "Model loaded. Starting transcription...",
       Event.file_start 1 3 (path_name f1)] ++
      seg_events (r1.duration.getD 0) r1.segments ++
      [Event.file_done 1 3 (path_name f1) (od ++ "/" ++ out_name 1 (ts 1)),
       Event.file_start 2 3 (path_name f2),
       Event.error msg] := by
    simp [worker_transcribe_all, workerLoop, hload, h1, h2, processSegments_eq]
  refine ⟨hevs, ?_, ?_, ?_, ?_, ?_⟩
  · rw [hevs]
    simp [List.countP_append, List.countP_cons, is_file_done_event,
      seg_events_countP_done]
  · rw [hevs]
    simp [List.countP_append, List.countP_cons, is_error_event,
      seg_events_countP_error]
  · rw [hevs, List.getLast?_append_cons]
    rfl
  · intro i t n o hmem
    rw [hevs] at hmem
    simp only [List.mem_append, List.mem_cons, List.not_mem_nil, or_false,
      reduceCtorEq, false_or, Event.file_done.injEq] at hmem
    rcases hmem with hmem | hmem
    · obtain ⟨s, _, _, heq⟩ := mem_seg_events hmem
      simp at heq
    · exact hmem.1
  · intro i t n hmem
    rw [hevs] at hmem
    simp only [List.mem_append, List.mem_cons, List.not_mem_nil, or_false,
      reduceCtorEq, false_or, or_false, Event.file_start.injEq] at hmem
    rcases hmem with (hmem | hmem) | hmem
    · omega
    · obtain ⟨s, _, _, heq⟩ := mem_seg_events hmem
      simp at heq
    · omega

/-- Witness for C1: a 3-file run whose engine raises "boom" on the 2nd
file. -/
theorem C1_error_fail_fast_witness :
    ((Except.ok () : Except String Unit) = Except.ok () ∧
      eg_fail_engine "a.mp3" = Except.ok eg_result ∧
      eg_fail_engine "b.mp3" = Except.error "boom") ∧
    ((∀ (lm : Except String Unit) (eng : String → Except String TranscribeResult)
      (od2 : String) (ts2 : Nat → String) (fs : List String),
      ∃ pre : List Event,
        (∀ e ∈ pre, is_error_event e = false) ∧
        ((worker_transcribe_all lm eng od2 ts2 fs).1 = pre ∨
          ∃ m, (worker_transcribe_all lm eng od2 ts2 fs).1 = pre ++ [Event.error m])) ∧
    (worker_transcribe_all (Except.ok ()) eg_fail_engine "/out" (fun _ => "120000")
        ["a.mp3", "b.mp3", "c.mp3"]).1 =
      [Event.status "Loading model (small, int8 on CPU)...",
       Event.status "Model loaded. Starting transcription...",
       Event.file_start 1 3 (path_name "a.mp3")] ++
      seg_events (eg_result.duration.getD 0) eg_result.segments ++
      [Event.file_done 1 3 (path_name "a.mp3")
        ("/out" ++ "/" ++ out_name 1 "120000"),
       Event.file_start 2 3 (path_name "b.mp3"),
       Event.error "boom"] ∧
    (worker_transcribe_all (Except.ok ()) eg_fail_engine "/out" (fun _ => "120000")
      ["a.mp3", "b.mp3", "c.mp3"]).1.countP is_file_done_event = 1 ∧
    (worker_transcribe_all (Except.ok ()) eg_fail_engine "/out" (fun _ => "120000")
      ["a.mp3", "b.mp3", "c.mp3"]).1.countP is_error_event = 1 ∧
    (worker_transcribe_all (Except.ok ()) eg_fail_engine "/out" (fun _ => "120000")
      ["a.mp3", "b.mp3", "c.mp3"]).1.getLast? = some (Event.error "boom") ∧
    (∀ (i t : Nat) (n o : String), Event.file_done i t n o ∈
      (worker_transcribe_all (Except.ok ()) eg_fail_engine "/out" (fun _ => "120000")
        ["a.mp3", "b.mp3", "c.mp3"]).1 → i = 1) ∧
    (∀ (i t : Nat) (n : String), Event.file_start i t n ∈
      (worker_transcribe_all (Except.ok ()) eg_fail_engine "/out" (fun _ => "120000")
        ["a.mp3", "b.mp3", "c.mp3"]).1 → i ≤ 2)) :=
  ⟨⟨rfl, rfl, rfl⟩,
    C1_error_fail_fast (Except.ok ()) eg_fail_engine "/out" (fun _ => "120000")
      "a.mp3" "b.mp3" "c.mp3" "boom" eg_result rfl rfl rfl⟩

end Transcriber
